import Mathlib

/-!
Verification of the request/response correlation layer of the repository's
`CanvaMCPClient` (src/src/services/jira/JiraIntegrationService.ts) and the
unknown-method branch of its counterpart mock dispatcher
(src/mock-mcp-server.cjs).

The client is embedded as a small-step state machine over an explicit
`ClientState`.  Each event corresponds to one atomic JavaScript callback run:
`register` is the synchronous tail of `sendRequest` (id allocation, timer
creation, table insertion), `response` is `handleMessage` on one parsed
inbound frame, `timerFire` is a 30-second request timer expiring,
`socketClosed` is the WebSocket `onclose` handler (which calls
`handleDisconnection` and then `attemptReconnection`), `reconnectFail` is the
catch-branch of a scheduled reconnection attempt, `opened` is `onopen`, and
`disconnectCall` is an explicit `disconnect()` invocation (whose queued close
event is delivered later as a separate `socketClosed` step).

Every call of the JS `resolve`/`reject` continuations of a pending promise is
appended to `settleLog`; the pending table and the set of still-armed
`setTimeout` timers are kept as lists of ids.
-/

namespace NexusMCP

/-- `MCPError` objects of the JSON-RPC envelope (src/src/types/canva.ts):
an integer `code` and a `message`. -/
structure MCPError where
  code : Int
  message : String
  deriving Repr, DecidableEq

/-- `MCPMessage` envelope as parsed by `handleMessage`: optional numeric `id`,
optional `result`, optional `error`.  Results are kept opaque as strings. -/
structure MCPMessage where
  id : Option Nat
  result : Option String
  error : Option MCPError
  deriving Repr, DecidableEq

/-- A plain JavaScript `Error` built by `new Error(message)`: it carries a
message and no numeric `code` property unless one is attached (the client
never attaches one, so `code` is `none` wherever the client constructs it). -/
structure JSError where
  message : String
  code : Option Int
  deriving Repr, DecidableEq

/-- `MCPConnectionError` (src/src/types/canva.ts): an `Error` subclass with a
string discriminant `code` defaulting to CONNECTION_FAILED when the
constructor is called with only a message. -/
structure MCPConnectionError where
  message : String
  code : String
  deriving Repr, DecidableEq

/-- The value a pending promise is rejected with. -/
inductive RejectValue where
  | jsError (e : JSError)
  | mcpConnectionError (e : MCPConnectionError)
  deriving Repr, DecidableEq

/-- One settlement call on a pending promise: `resolve(result)` or
`reject(err)`. -/
inductive Outcome where
  | resolved (result : Option String)
  | rejected (err : RejectValue)
  deriving Repr, DecidableEq

/-- `clearTimeout(pending.timeout); pending.reject(new MCPConnectionError('Connection lost'))`
uses the one-argument constructor, so the string code is CONNECTION_FAILED. -/
def connectionLost : Outcome :=
  .rejected (.mcpConnectionError ⟨"Connection lost", "CONNECTION_FAILED"⟩)

/-- `reject(new MCPConnectionError('Request timeout'))` in the `setTimeout`
callback of `sendRequest`, again with the defaulted string code. -/
def requestTimeout : Outcome :=
  .rejected (.mcpConnectionError ⟨"Request timeout", "CONNECTION_FAILED"⟩)

/-- The fixed timer duration hard-coded in `sendRequest`: 30000 ms. -/
def requestTimerMs : Nat := 30000

/-- The private field initializer `maxReconnectAttempts = 5`. -/
def maxReconnectAttempts : Nat := 5

/-- The private field initializer `reconnectDelay = 1000`. -/
def reconnectDelay : Nat := 1000

/-- State of one `CanvaMCPClient` instance.

* `requestId` — the `private requestId = 0` counter, incremented by
  `++this.requestId` on each `sendRequest`;
* `table` — the ids currently keyed in `pendingRequests`;
* `armed` — ids whose `setTimeout` request timer has neither fired nor been
  cancelled by `clearTimeout`, with the duration the timer was created with;
* `settleLog` — every `resolve`/`reject` call made so far, in order;
* `assigned` — the ids handed out by `sendRequest`, in order;
* `wsOpen` — whether `this.ws` is non-null with `readyState === OPEN`;
* `isConnecting`, `reconnectAttempts` — the corresponding private fields;
* `scheduled` — the backoff delays of the reconnection attempts scheduled so
  far, in order. -/
structure ClientState where
  requestId : Nat
  table : List Nat
  armed : List (Nat × Nat)
  settleLog : List (Nat × Outcome)
  assigned : List Nat
  wsOpen : Bool
  isConnecting : Bool
  reconnectAttempts : Nat
  scheduled : List Nat
  deriving Repr, DecidableEq

/-- The ids of still-armed request timers. -/
def ClientState.armedIds (s : ClientState) : List Nat :=
  s.armed.map Prod.fst

/-- The ids that have received at least one settlement call. -/
def ClientState.settledIds (s : ClientState) : List Nat :=
  s.settleLog.map Prod.fst

/-- A fresh client: all counters zero, no socket, nothing pending. -/
def initState : ClientState :=
  { requestId := 0, table := [], armed := [], settleLog := [], assigned := []
    wsOpen := false, isConnecting := false, reconnectAttempts := 0
    scheduled := [] }

/-- `attemptReconnection()`: returns immediately once
`reconnectAttempts >= maxReconnectAttempts` (only logging to the console);
otherwise increments the counter and schedules a `connect()` after
`reconnectDelay * 2 ^ (reconnectAttempts - 1)` milliseconds. -/
def attemptReconnection (s : ClientState) : ClientState :=
  if s.reconnectAttempts ≥ maxReconnectAttempts then s
  else
    let a := s.reconnectAttempts + 1
    { s with reconnectAttempts := a
             scheduled := s.scheduled ++ [reconnectDelay * 2 ^ (a - 1)] }

/-- `handleDisconnection()`: rejects every entry of `pendingRequests` with
`MCPConnectionError('Connection lost')` after `clearTimeout` on its timer,
clears the table, and then calls `attemptReconnection()`. -/
def handleDisconnection (s : ClientState) : ClientState :=
  attemptReconnection
    { s with
      settleLog := s.settleLog ++ s.table.map (fun id => (id, connectionLost))
      armed := s.armed.filter (fun e => ¬ s.table.contains e.1)
      table := [] }

/-- The settlement `handleMessage` performs on a matched entry: if
`message.error` is truthy, `pending.reject(new Error(message.error.message))`
— note only the message string is carried, never the numeric code — else
`pending.resolve(message.result)`. -/
def responseOutcome (msg : MCPMessage) : Outcome :=
  match msg.error with
  | some e => .rejected (.jsError ⟨e.message, none⟩)
  | none => .resolved msg.result

/-- `handleMessage(data)` on a parsed envelope: if `message.id` is truthy and
keys a pending entry, the entry is deleted, its timer cancelled, and the
promise settled with `responseOutcome`; any other message is dropped.
(A JSON parse failure is likewise caught and dropped.) -/
def handleMessage (s : ClientState) (msg : MCPMessage) : ClientState :=
  match msg.id with
  | none => s
  | some id =>
    if id ≠ 0 ∧ s.table.contains id then
      { s with
        table := s.table.filter (fun i => i ≠ id)
        armed := s.armed.filter (fun e => e.1 ≠ id)
        settleLog := s.settleLog ++ [(id, responseOutcome msg)] }
    else s

/-- Events driving one client instance, each one atomic callback run. -/
inductive Event where
  | register
  | response (msg : MCPMessage)
  | timerFire (id : Nat)
  | socketClosed
  | reconnectFail
  | opened
  | disconnectCall
  deriving Repr, DecidableEq

/-- One atomic step of the client. -/
def applyEvent (s : ClientState) : Event → ClientState
  | .register =>
      -- sendRequest: runs only with an open socket (otherwise `connect()` is
      -- awaited first and a failure throws before any registration).
      if s.wsOpen then
        let id := s.requestId + 1
        { s with requestId := id
                 table := s.table ++ [id]
                 armed := s.armed ++ [(id, requestTimerMs)]
                 assigned := s.assigned ++ [id] }
      else s
  | .response msg => handleMessage s msg
  | .timerFire id =>
      -- a `setTimeout` callback can only run while the timer is still armed;
      -- it deletes the id from the table and rejects with 'Request timeout'.
      if s.armedIds.contains id then
        { s with
          armed := s.armed.filter (fun e => e.1 ≠ id)
          table := s.table.filter (fun i => i ≠ id)
          settleLog := s.settleLog ++ [(id, requestTimeout)] }
      else s
  | .socketClosed =>
      -- ws.onclose: isConnecting := false, then handleDisconnection()
      handleDisconnection { s with wsOpen := false, isConnecting := false }
  | .reconnectFail =>
      -- the catch branch of a scheduled attempt calls attemptReconnection()
      attemptReconnection s
  | .opened =>
      -- ws.onopen: isConnecting := false, reconnectAttempts := 0
      { s with wsOpen := true, isConnecting := false, reconnectAttempts := 0 }
  | .disconnectCall =>
      -- disconnect(): ws.close(); ws = null; pendingRequests.clear()
      -- (no timer is cleared, no promise is settled; the socket close event
      -- it provokes is delivered later as a separate `socketClosed` step)
      { s with wsOpen := false, table := [] }

/-- Run a list of events from the fresh client. -/
def run (evs : List Event) : ClientState :=
  evs.foldl applyEvent initState

/-- The `connectionState` getter. -/
def connectionState (s : ClientState) : String :=
  if s.isConnecting then "connecting"
  else if s.wsOpen then "connected"
  else if s.reconnectAttempts > 0 then "reconnecting"
  else "disconnected"

/-- `createMCPResponse(id, result, error)` of src/mock-mcp-server.cjs: spreads
`result`/`error` into the envelope only when non-null. -/
def createMCPResponse (id : Option Nat) (result : Option String)
    (error : Option MCPError) : MCPMessage :=
  { id := id, result := result, error := error }

/-- The method names carried by the non-default `case` labels of the mock
server's message switch. -/
def knownMethods : List String :=
  ["ping", "canva.capabilities", "canva.design.create", "canva.design.get",
   "canva.design.list", "canva.template.search", "canva.ai.generate",
   "canva.design.create_from_template"]

/-- The `default` branch of the mock server's dispatcher: an unknown method
produces `createMCPResponse(request.id, null, {code: -32601, message:
"Method not found: <method>"})`. -/
def mockUnknownMethodResponse (id : Nat) (method : String) : MCPMessage :=
  createMCPResponse (some id) none
    (some ⟨-32601, "Method not found: " ++ method⟩)

/-! ### Reachability invariant of the correlator state -/

/-- Invariant of every reachable `ClientState`: settlement calls are unique
per id, live entries (in the table or with an armed timer) are unsettled,
every table entry still has an armed timer, ids are bounded by the counter,
every issued id is settled or still has an armed timer, the assigned ids are
exactly `1..requestId` in order, and every armed timer was created with the
fixed 30000 ms duration. -/
structure Inv (s : ClientState) : Prop where
  settledNodup : s.settledIds.Nodup
  liveNotSettled : ∀ id, id ∈ s.table ∨ id ∈ s.armedIds → id ∉ s.settledIds
  tableArmed : ∀ id, id ∈ s.table → id ∈ s.armedIds
  armedBound : ∀ id, id ∈ s.armedIds → 1 ≤ id ∧ id ≤ s.requestId
  settledBound : ∀ id, id ∈ s.settledIds → 1 ≤ id ∧ id ≤ s.requestId
  armedNodup : s.armedIds.Nodup
  tableNodup : s.table.Nodup
  covered : ∀ id, 1 ≤ id → id ≤ s.requestId →
    id ∈ s.settledIds ∨ id ∈ s.armedIds
  assignedRange : s.assigned = List.range' 1 s.requestId
  durations : ∀ e, e ∈ s.armed → e.2 = requestTimerMs

theorem inv_init : Inv initState := by
  constructor
  all_goals simp [initState, ClientState.armedIds, ClientState.settledIds]
  all_goals omega

/-- `Inv` only looks at the correlator core of the state. -/
theorem inv_congr {s t : ClientState} (h : Inv s)
    (h1 : t.requestId = s.requestId) (h2 : t.table = s.table)
    (h3 : t.armed = s.armed) (h4 : t.settleLog = s.settleLog)
    (h5 : t.assigned = s.assigned) : Inv t := by
  have ha : t.armedIds = s.armedIds := by
    simp [ClientState.armedIds, h3]
  have hs : t.settledIds = s.settledIds := by
    simp [ClientState.settledIds, h4]
  exact ⟨hs ▸ h.settledNodup,
    by rw [h2, ha, hs]; exact h.liveNotSettled,
    by rw [h2, ha]; exact h.tableArmed,
    by rw [ha, h1]; exact h.armedBound,
    by rw [hs, h1]; exact h.settledBound,
    ha ▸ h.armedNodup,
    h2 ▸ h.tableNodup,
    by rw [h1, hs, ha]; exact h.covered,
    by rw [h5, h1]; exact h.assignedRange,
    by rw [h3]; exact h.durations⟩

theorem inv_attemptReconnection {s : ClientState} (h : Inv s) :
    Inv (attemptReconnection s) := by
  unfold attemptReconnection
  split
  · exact h
  · exact inv_congr h rfl rfl rfl rfl rfl

theorem inv_registerCore (s : ClientState) (h : Inv s) :
    Inv { s with requestId := s.requestId + 1,
                 table := s.table ++ [s.requestId + 1],
                 armed := s.armed ++ [(s.requestId + 1, requestTimerMs)],
                 assigned := s.assigned ++ [s.requestId + 1] } := by
  have hfresh : s.requestId + 1 ∉ s.armedIds := fun hmem => by
    have := (h.armedBound _ hmem).2; omega
  have hfreshS : s.requestId + 1 ∉ s.settledIds := fun hmem => by
    have := (h.settledBound _ hmem).2; omega
  constructor
  · exact h.settledNodup
  · intro id hid
    have hid' : id ∈ s.table ++ [s.requestId + 1] ∨
        id ∈ (s.armed ++ [(s.requestId + 1, requestTimerMs)]).map Prod.fst :=
      hid
    simp only [List.map_append, List.map_cons, List.map_nil,
      List.mem_append, List.mem_singleton] at hid'
    show id ∉ s.settledIds
    rcases hid' with (h1 | h1) | (h1 | h1)
    · exact h.liveNotSettled id (Or.inl h1)
    · subst h1; exact hfreshS
    · exact h.liveNotSettled id (Or.inr h1)
    · subst h1; exact hfreshS
  · intro id hid
    have hid' : id ∈ s.table ++ [s.requestId + 1] := hid
    simp only [List.mem_append, List.mem_singleton] at hid'
    show id ∈ (s.armed ++ [(s.requestId + 1, requestTimerMs)]).map Prod.fst
    simp only [List.map_append, List.map_cons, List.map_nil, List.mem_append,
      List.mem_singleton]
    rcases hid' with h1 | h1
    · exact Or.inl (h.tableArmed id h1)
    · exact Or.inr h1
  · intro id hid
    have hid' : id ∈ (s.armed ++ [(s.requestId + 1, requestTimerMs)]).map
        Prod.fst := hid
    simp only [List.map_append, List.map_cons, List.map_nil, List.mem_append,
      List.mem_singleton] at hid'
    show 1 ≤ id ∧ id ≤ s.requestId + 1
    rcases hid' with h1 | h1
    · have := h.armedBound id h1; omega
    · omega
  · intro id hid
    have hid' : id ∈ s.settledIds := hid
    have := h.settledBound id hid'
    show 1 ≤ id ∧ id ≤ s.requestId + 1
    omega
  · show ((s.armed ++ [(s.requestId + 1, requestTimerMs)]).map Prod.fst).Nodup
    simp only [List.map_append, List.map_cons, List.map_nil]
    rw [List.nodup_append]
    refine ⟨h.armedNodup, by simp, ?_⟩
    intro a ha hb
    simp only [List.mem_singleton] at hb
    subst hb
    exact hfresh ha
  · show (s.table ++ [s.requestId + 1]).Nodup
    rw [List.nodup_append]
    refine ⟨h.tableNodup, by simp, ?_⟩
    intro a ha hb
    simp only [List.mem_singleton] at hb
    subst hb
    exact hfresh (h.tableArmed _ ha)
  · intro id h1 h2
    have h2' : id ≤ s.requestId + 1 := h2
    show id ∈ s.settledIds ∨
      id ∈ (s.armed ++ [(s.requestId + 1, requestTimerMs)]).map Prod.fst
    simp only [List.map_append, List.map_cons, List.map_nil, List.mem_append,
      List.mem_singleton]
    by_cases hc : id ≤ s.requestId
    · rcases h.covered id h1 hc with hc' | hc'
      · exact Or.inl hc'
      · exact Or.inr (Or.inl hc')
    · have : id = s.requestId + 1 := by omega
      exact Or.inr (Or.inr this)
  · show s.assigned ++ [s.requestId + 1] = List.range' 1 (s.requestId + 1)
    rw [h.assignedRange, List.range'_concat]
    have : 1 + 1 * s.requestId = s.requestId + 1 := by omega
    rw [this]
  · intro e he
    have he' : e ∈ s.armed ++ [(s.requestId + 1, requestTimerMs)] := he
    simp only [List.mem_append, List.mem_singleton] at he'
    rcases he' with h1 | h1
    · exact h.durations e h1
    · subst h1; rfl

/-- Settling one id whose timer is still armed (the response path also
satisfies this via `tableArmed`): the entry is filtered out of the table, its
timer is cancelled, and one settlement call is logged. -/
theorem inv_settleCore (s : ClientState) (h : Inv s) (id : Nat) (out : Outcome)
    (hid : id ∈ s.armedIds) :
    Inv { s with table := s.table.filter (fun i => i ≠ id),
                 armed := s.armed.filter (fun e => e.1 ≠ id),
                 settleLog := s.settleLog ++ [(id, out)] } := by
  have hsub : List.Sublist ((s.armed.filter (fun e => e.1 ≠ id)).map Prod.fst)
      (s.armed.map Prod.fst) :=
    (List.filter_sublist _).map Prod.fst
  have hnotset : id ∉ s.settledIds := h.liveNotSettled id (Or.inr hid)
  constructor
  · simp only [ClientState.settledIds, List.map_append, List.map_cons,
      List.map_nil]
    rw [List.nodup_append]
    refine ⟨h.settledNodup, by simp, ?_⟩
    intro a ha hb
    simp only [List.mem_singleton] at hb
    subst hb
    exact hnotset ha
  · intro i hi
    have hi' : i ∈ s.table.filter (fun i => i ≠ id) ∨
        i ∈ (s.armed.filter (fun e => e.1 ≠ id)).map Prod.fst := hi
    show i ∉ (s.settleLog ++ [(id, out)]).map Prod.fst
    rw [List.map_append]
    simp only [List.map_cons, List.map_nil, List.mem_append,
      List.mem_singleton]
    push_neg
    rcases hi' with h1 | h1
    · rw [List.mem_filter] at h1
      exact ⟨h.liveNotSettled i (Or.inl h1.1), by simpa using h1.2⟩
    · simp only [List.mem_map, List.mem_filter, decide_eq_true_eq] at h1
      obtain ⟨e, ⟨he, hne⟩, rfl⟩ := h1
      exact ⟨h.liveNotSettled e.1 (Or.inr (List.mem_map.mpr ⟨e, he, rfl⟩)), hne⟩
  · intro i hi
    have hi' : i ∈ s.table.filter (fun i => i ≠ id) := hi
    simp only [List.mem_filter, decide_eq_true_eq] at hi'
    show i ∈ (s.armed.filter (fun e => e.1 ≠ id)).map Prod.fst
    obtain ⟨e, he, rfl⟩ := List.mem_map.mp (h.tableArmed i hi'.1)
    exact List.mem_map.mpr ⟨e, List.mem_filter.mpr ⟨he, by
      simpa using hi'.2⟩, rfl⟩
  · intro i hi
    have hi' : i ∈ (s.armed.filter (fun e => e.1 ≠ id)).map Prod.fst := hi
    show 1 ≤ i ∧ i ≤ s.requestId
    exact h.armedBound i (hsub.mem hi')
  · intro i hi
    simp only [ClientState.settledIds, List.map_append, List.map_cons,
      List.map_nil, List.mem_append, List.mem_singleton] at hi
    show 1 ≤ i ∧ i ≤ s.requestId
    rcases hi with h1 | h1
    · exact h.settledBound i h1
    · subst h1; exact h.armedBound i hid
  · show ((s.armed.filter (fun e => e.1 ≠ id)).map Prod.fst).Nodup
    exact List.Nodup.sublist hsub h.armedNodup
  · show (s.table.filter (fun i => i ≠ id)).Nodup
    exact h.tableNodup.filter _
  · intro i h1 h2
    simp only [ClientState.settledIds, ClientState.armedIds, List.map_append,
      List.map_cons, List.map_nil, List.mem_append, List.mem_singleton]
    rcases h.covered i h1 h2 with hc | hc
    · exact Or.inl (Or.inl hc)
    · by_cases hii : i = id
      · exact Or.inl (Or.inr hii)
      · obtain ⟨e, he, rfl⟩ := List.mem_map.mp hc
        exact Or.inr (List.mem_map.mpr
          ⟨e, List.mem_filter.mpr ⟨he, by simpa using hii⟩, rfl⟩)
  · exact h.assignedRange
  · intro e he
    have he' : e ∈ s.armed.filter (fun e => e.1 ≠ id) := he
    exact h.durations e ((List.filter_sublist _).mem he')

/-- `handleDisconnection` minus the trailing `attemptReconnection`: rejecting
all table entries and clearing the table preserves the invariant. -/
theorem inv_drainCore (s : ClientState) (h : Inv s) :
    Inv { s with
          settleLog := s.settleLog ++ s.table.map (fun id => (id, connectionLost))
          armed := s.armed.filter (fun e => ¬ s.table.contains e.1)
          table := [] } := by
  have hsub : List.Sublist
      ((s.armed.filter (fun e => ¬ s.table.contains e.1)).map Prod.fst)
      (s.armed.map Prod.fst) :=
    (List.filter_sublist _).map Prod.fst
  have hmmAll : ∀ t : List Nat,
      (t.map (fun id => (id, connectionLost))).map Prod.fst = t := by
    intro t
    induction t with
    | nil => rfl
    | cons a t ih => simp only [List.map_cons, ih]
  have hmm : (s.table.map (fun id => (id, connectionLost))).map Prod.fst
      = s.table := hmmAll s.table
  constructor
  · simp only [ClientState.settledIds, List.map_append, hmm]
    rw [List.nodup_append]
    refine ⟨h.settledNodup, h.tableNodup, ?_⟩
    intro a ha hb
    exact h.liveNotSettled a (Or.inl hb) ha
  · intro i hi
    have hi' : i ∈ ([] : List Nat) ∨
        i ∈ (s.armed.filter (fun e => ¬ s.table.contains e.1)).map Prod.fst :=
      hi
    simp only [ClientState.settledIds, List.map_append, hmm, List.mem_append]
    rcases hi' with h1 | h1
    · simp at h1
    · simp only [List.mem_map, List.mem_filter, decide_eq_true_eq] at h1
      obtain ⟨e, ⟨he, hne⟩, rfl⟩ := h1
      push_neg
      refine ⟨h.liveNotSettled e.1 (Or.inr (List.mem_map.mpr ⟨e, he, rfl⟩)), ?_⟩
      intro hmem
      exact hne (by simpa [List.elem_iff] using hmem)
  · intro i hi
    exact absurd (show i ∈ ([] : List Nat) from hi) (by simp)
  · intro i hi
    have hi' : i ∈ (s.armed.filter
        (fun e => ¬ s.table.contains e.1)).map Prod.fst := hi
    show 1 ≤ i ∧ i ≤ s.requestId
    exact h.armedBound i (hsub.mem hi')
  · intro i hi
    simp only [ClientState.settledIds, List.map_append, hmm,
      List.mem_append] at hi
    show 1 ≤ i ∧ i ≤ s.requestId
    rcases hi with h1 | h1
    · exact h.settledBound i h1
    · exact h.armedBound i (h.tableArmed i h1)
  · show ((s.armed.filter (fun e => ¬ s.table.contains e.1)).map
      Prod.fst).Nodup
    exact List.Nodup.sublist hsub h.armedNodup
  · show ([] : List Nat).Nodup
    exact List.nodup_nil
  · intro i h1 h2
    simp only [ClientState.settledIds, ClientState.armedIds, List.map_append,
      hmm, List.mem_append]
    rcases h.covered i h1 h2 with hc | hc
    · exact Or.inl (Or.inl hc)
    · by_cases hit : i ∈ s.table
      · exact Or.inl (Or.inr hit)
      · obtain ⟨e, he, rfl⟩ := List.mem_map.mp hc
        refine Or.inr (List.mem_map.mpr ⟨e, List.mem_filter.mpr ⟨he, ?_⟩, rfl⟩)
        simpa [List.elem_iff] using hit
  · exact h.assignedRange
  · intro e he
    have he' : e ∈ s.armed.filter (fun e => ¬ s.table.contains e.1) := he
    exact h.durations e ((List.filter_sublist _).mem he')

/-- `disconnect()` clears the table (and closes the socket) but settles
nothing and cancels no timer. -/
theorem inv_clearCore (s : ClientState) (h : Inv s) :
    Inv { s with wsOpen := false, table := [] } := by
  constructor
  · exact h.settledNodup
  · intro i hi
    have hi' : i ∈ ([] : List Nat) ∨ i ∈ s.armedIds := hi
    show i ∉ s.settledIds
    rcases hi' with h1 | h1
    · simp at h1
    · exact h.liveNotSettled i (Or.inr h1)
  · intro i hi
    exact absurd (show i ∈ ([] : List Nat) from hi) (by simp)
  · exact h.armedBound
  · exact h.settledBound
  · exact h.armedNodup
  · exact List.nodup_nil
  · exact h.covered
  · exact h.assignedRange
  · exact h.durations

theorem inv_handleMessage {s : ClientState} (h : Inv s) (msg : MCPMessage) :
    Inv (handleMessage s msg) := by
  unfold handleMessage
  split
  · exact h
  · rename_i id heq
    split
    case isTrue hc =>
      have hmem : id ∈ s.table := by
        simpa [List.elem_iff] using hc.2
      exact inv_settleCore s h id _ (h.tableArmed id hmem)
    case isFalse => exact h

theorem inv_applyEvent {s : ClientState} (h : Inv s) (e : Event) :
    Inv (applyEvent s e) := by
  cases e with
  | register =>
    show Inv (if s.wsOpen then _ else s)
    split
    · exact inv_registerCore s h
    · exact h
  | response msg => exact inv_handleMessage h msg
  | timerFire id =>
    show Inv (if s.armedIds.contains id then _ else s)
    split
    case isTrue hc =>
      exact inv_settleCore s h id requestTimeout (by
        simpa [List.elem_iff] using hc)
    case isFalse => exact h
  | socketClosed =>
    show Inv (handleDisconnection { s with wsOpen := false, isConnecting := false })
    unfold handleDisconnection
    exact inv_attemptReconnection
      (inv_drainCore _ (inv_congr h rfl rfl rfl rfl rfl))
  | reconnectFail => exact inv_attemptReconnection h
  | opened => exact inv_congr h rfl rfl rfl rfl rfl
  | disconnectCall => exact inv_clearCore s h

/-- Every state reachable from a fresh client satisfies the invariant. -/
theorem inv_run (evs : List Event) : Inv (run evs) := by
  suffices hgen : ∀ t : ClientState, Inv t → Inv (evs.foldl applyEvent t) from
    hgen initState inv_init
  induction evs with
  | nil => intro t ht; exact ht
  | cons e rest ih =>
    intro t ht
    exact ih (applyEvent t e) (inv_applyEvent ht e)

/-! ### Unfolding equations for single steps -/

theorem timerFire_eq (s : ClientState) (id : Nat) (h : id ∈ s.armedIds) :
    applyEvent s (.timerFire id) =
      { s with armed := s.armed.filter (fun e => e.1 ≠ id),
               table := s.table.filter (fun i => i ≠ id),
               settleLog := s.settleLog ++ [(id, requestTimeout)] } := by
  show (if s.armedIds.contains id then _ else s) = _
  rw [if_pos (by simpa [List.elem_iff] using h)]

theorem handleMessage_drop (s : ClientState) (msg : MCPMessage)
    (h : ∀ id, msg.id = some id → id ∉ s.table) :
    handleMessage s msg = s := by
  unfold handleMessage
  split
  · rfl
  · rename_i id heq
    exact if_neg (fun hcond =>
      h id heq (by simpa [List.elem_iff] using hcond.2))

theorem handleMessage_settle (s : ClientState) (msg : MCPMessage) (id : Nat)
    (hid : msg.id = some id) (h0 : id ≠ 0) (hmem : id ∈ s.table) :
    handleMessage s msg =
      { s with table := s.table.filter (fun i => i ≠ id),
               armed := s.armed.filter (fun e => e.1 ≠ id),
               settleLog := s.settleLog ++ [(id, responseOutcome msg)] } := by
  unfold handleMessage
  rw [hid]
  show (if id ≠ 0 ∧ s.table.contains id then _ else s) = _
  rw [if_pos ⟨h0, by simpa [List.elem_iff] using hmem⟩]

theorem socketClosed_eq (s : ClientState) :
    applyEvent s .socketClosed = attemptReconnection
      { s with wsOpen := false, isConnecting := false,
               settleLog := s.settleLog ++
                 s.table.map (fun id => (id, connectionLost)),
               armed := s.armed.filter (fun e => ¬ s.table.contains e.1),
               table := [] } := rfl

theorem attemptReconnection_core (s : ClientState) :
    (attemptReconnection s).table = s.table
    ∧ (attemptReconnection s).armed = s.armed
    ∧ (attemptReconnection s).settleLog = s.settleLog
    ∧ (attemptReconnection s).requestId = s.requestId := by
  unfold attemptReconnection
  split
  · exact ⟨rfl, rfl, rfl, rfl⟩
  · exact ⟨rfl, rfl, rfl, rfl⟩

theorem socketClosed_table (s : ClientState) :
    (applyEvent s .socketClosed).table = [] := by
  rw [socketClosed_eq]
  exact (attemptReconnection_core _).1

theorem socketClosed_armed (s : ClientState) :
    (applyEvent s .socketClosed).armed
      = s.armed.filter (fun e => ¬ s.table.contains e.1) := by
  rw [socketClosed_eq]
  exact (attemptReconnection_core _).2.1

theorem socketClosed_settleLog (s : ClientState) :
    (applyEvent s .socketClosed).settleLog
      = s.settleLog ++ s.table.map (fun id => (id, connectionLost)) := by
  rw [socketClosed_eq]
  exact (attemptReconnection_core _).2.2.1

/-! ### Claims -/

/-- C1: in every reachable client state, (i) no pending request ever receives
two settlement calls (the settle log keys are without duplicate); (ii) a
settled id is no longer in the pending table; (iii) every issued id is either
already settled or still has an armed timer, so some settlement path remains
available until exactly one fires; (iv) firing the armed timer of an
unsettled id settles it exactly once more; (v) a response whose id keys no
pending entry (late, duplicate, or unsolicited) leaves the state completely
unchanged — it is silently dropped and neither re-settles nor errors any
call. -/
theorem c1_exactly_once_settlement (evs : List Event) :
    (run evs).settledIds.Nodup
    ∧ (∀ id, id ∈ (run evs).settledIds → id ∉ (run evs).table)
    ∧ (∀ id, 1 ≤ id → id ≤ (run evs).requestId →
        id ∈ (run evs).settledIds ∨ id ∈ (run evs).armedIds)
    ∧ (∀ id, id ∈ (run evs).armedIds →
        (applyEvent (run evs) (.timerFire id)).settledIds
          = (run evs).settledIds ++ [id])
    ∧ (∀ msg, (∀ id, msg.id = some id → id ∉ (run evs).table) →
        applyEvent (run evs) (.response msg) = run evs) := by
  have h := inv_run evs
  refine ⟨h.settledNodup, ?_, h.covered, ?_, ?_⟩
  · intro id hset htab
    exact h.liveNotSettled id (Or.inl htab) hset
  · intro id hid
    rw [timerFire_eq (run evs) id hid]
    show ((run evs).settleLog ++ [(id, requestTimeout)]).map Prod.fst = _
    rw [List.map_append]
    rfl
  · intro msg hmsg
    exact handleMessage_drop (run evs) msg hmsg

theorem c1_exactly_once_settlement_witness :
    1 ∈ (run [Event.opened, Event.register]).armedIds
    ∧ (applyEvent (run [Event.opened, Event.register])
          (Event.timerFire 1)).settledIds
        = (run [Event.opened, Event.register]).settledIds ++ [1] :=
  ⟨by decide,
   (c1_exactly_once_settlement [Event.opened, Event.register]).2.2.2.1 1
     (by decide)⟩

/-- C2: delivering the transport-loss notification (`onclose` →
`handleDisconnection`) drains the whole pending table in one step: the table
is left empty, and every entry pending at that moment — whatever its timer
state — has its timer cancelled and its promise rejected with
`MCPConnectionError('Connection lost')`, this being its first settlement. -/
theorem c2_transport_loss_drains_table (evs : List Event) :
    (applyEvent (run evs) .socketClosed).table = []
    ∧ (∀ id, id ∈ (run evs).table →
        (id, connectionLost) ∈ (applyEvent (run evs) .socketClosed).settleLog
        ∧ id ∉ (run evs).settledIds
        ∧ id ∉ (applyEvent (run evs) .socketClosed).armedIds) := by
  have h := inv_run evs
  refine ⟨socketClosed_table _, ?_⟩
  intro id hid
  refine ⟨?_, h.liveNotSettled id (Or.inl hid), ?_⟩
  · rw [socketClosed_settleLog]
    exact List.mem_append_right _ (List.mem_map.mpr ⟨id, hid, rfl⟩)
  · intro hmem
    have hmem' : id ∈ (applyEvent (run evs) .socketClosed).armed.map
        Prod.fst := hmem
    rw [socketClosed_armed] at hmem'
    simp only [List.mem_map, List.mem_filter, decide_eq_true_eq] at hmem'
    obtain ⟨e, ⟨-, hne⟩, rfl⟩ := hmem'
    exact hne (by simpa [List.elem_iff] using hid)

theorem c2_transport_loss_drains_table_witness :
    (1, connectionLost) ∈
      (applyEvent (run [Event.opened, Event.register])
        Event.socketClosed).settleLog
    ∧ 1 ∉ (run [Event.opened, Event.register]).settledIds
    ∧ 1 ∉ (applyEvent (run [Event.opened, Event.register])
        Event.socketClosed).armedIds :=
  (c2_transport_loss_drains_table [Event.opened, Event.register]).2 1
    (by decide)

/-- C3 counterexample: with request 1 pending, an explicit `disconnect()`
performs no settlement at all — in particular it does not reject the pending
request with a connection-lost error; the request is settled only later by
its own 30 s timer, and then with `MCPConnectionError('Request timeout')`,
which differs from `MCPConnectionError('Connection lost')`. -/
theorem c3_disconnect_rejects_nothing_counterexample :
    1 ∈ (run [Event.opened, Event.register]).table
    ∧ (applyEvent (run [Event.opened, Event.register])
        Event.disconnectCall).settleLog = []
    ∧ (run [Event.opened, Event.register, Event.disconnectCall,
        Event.socketClosed, Event.timerFire 1]).settleLog
        = [(1, requestTimeout)]
    ∧ requestTimeout ≠ connectionLost := by
  decide

/-- C3 (amended): `disconnect()` tears down the socket and clears the pending
table, but it neither settles nor rejects any pending request and cancels no
timer; the close event it provokes then finds the table empty and rejects
nothing, so each request pending at the moment of `disconnect()` is left to
its own 30 s timer. -/
theorem c3_disconnect_clears_without_settling (evs : List Event) :
    (applyEvent (run evs) .disconnectCall).wsOpen = false
    ∧ (applyEvent (run evs) .disconnectCall).table = []
    ∧ (applyEvent (run evs) .disconnectCall).settleLog = (run evs).settleLog
    ∧ (applyEvent (run evs) .disconnectCall).armed = (run evs).armed
    ∧ (applyEvent (applyEvent (run evs) .disconnectCall)
        .socketClosed).settleLog = (run evs).settleLog := by
  refine ⟨rfl, rfl, rfl, rfl, ?_⟩
  rw [socketClosed_settleLog]
  show (run evs).settleLog ++
    List.map (fun id => (id, connectionLost)) [] = (run evs).settleLog
  rw [List.map_nil, List.append_nil]

/-- C4 counterexample: starting from a connected client, an explicit
`disconnect()` followed by the socket-close event it provokes results in an
automatic reconnection attempt being scheduled (`reconnectAttempts` becomes 1
and a 1000 ms backoff is queued): explicit disconnect does not suppress the
reconnection state machine. -/
theorem c4_disconnect_still_reconnects_counterexample :
    (run [Event.opened, Event.disconnectCall, Event.socketClosed]).scheduled
      = [1000]
    ∧ (run [Event.opened, Event.disconnectCall,
        Event.socketClosed]).reconnectAttempts = 1 := by
  decide

/-- C4 (amended): every socket-close event — whether from an unsolicited
transport loss or provoked by an explicit `disconnect()` — runs
`handleDisconnection`, which unconditionally calls `attemptReconnection`:
there is no flag suppressing auto-reconnect, so whenever the attempt counter
is below the maximum, a reconnection attempt is scheduled with the next
backoff delay. -/
theorem c4_socket_close_always_schedules_reconnect (evs : List Event)
    (h : (run evs).reconnectAttempts < maxReconnectAttempts) :
    (applyEvent (run evs) .socketClosed).reconnectAttempts
        = (run evs).reconnectAttempts + 1
    ∧ (applyEvent (run evs) .socketClosed).scheduled
        = (run evs).scheduled
          ++ [reconnectDelay * 2 ^ (run evs).reconnectAttempts] := by
  rw [socketClosed_eq]
  unfold attemptReconnection
  rw [if_neg (Nat.not_le.mpr h)]
  exact ⟨rfl, rfl⟩

theorem c4_socket_close_always_schedules_reconnect_witness :
    (applyEvent (run [Event.opened, Event.disconnectCall])
        Event.socketClosed).reconnectAttempts
      = (run [Event.opened, Event.disconnectCall]).reconnectAttempts + 1
    ∧ (applyEvent (run [Event.opened, Event.disconnectCall])
        Event.socketClosed).scheduled
      = (run [Event.opened, Event.disconnectCall]).scheduled
        ++ [reconnectDelay *
          2 ^ (run [Event.opened, Event.disconnectCall]).reconnectAttempts] :=
  c4_socket_close_always_schedules_reconnect
    [Event.opened, Event.disconnectCall] (by decide)

/-- C5: the request ids assigned by `sendRequest` over any event sequence on
one client instance are strictly increasing in order of assignment, hence
pairwise distinct — no id is ever reused for the lifetime of the instance. -/
theorem c5_request_ids_strictly_increasing (evs : List Event) :
    (run evs).assigned.Pairwise (· < ·) ∧ (run evs).assigned.Nodup := by
  rw [(inv_run evs).assignedRange]
  exact ⟨List.pairwise_lt_range' 1 _, List.nodup_range' 1 _⟩

/-- C6 counterexample: `sendRequest` takes no per-call timeout argument: the
pending entry registered for the first call carries the hard-coded 30000 ms
timer, which is not the claimed per-call value (in particular not 50 ms). -/
theorem c6_no_per_call_timeout_counterexample :
    (run [Event.opened, Event.register]).armed = [(1, requestTimerMs)]
    ∧ requestTimerMs = 30000
    ∧ (30000 : Nat) ≠ 50 := by
  decide

/-- C6 (amended): every pending entry is registered with the fixed 30000 ms
timer (`sendRequest` accepts no per-call timeout), and when the timer of a
still-armed id expires before a response, the entry is removed from the
table, the timer is disarmed, and the promise is rejected with
`MCPConnectionError('Request timeout')`. -/
theorem c6_fixed_thirty_second_timeout (evs : List Event) :
    (∀ e, e ∈ (run evs).armed → e.2 = requestTimerMs)
    ∧ (∀ id, id ∈ (run evs).armedIds →
        applyEvent (run evs) (.timerFire id) =
          { run evs with
            armed := (run evs).armed.filter (fun e => e.1 ≠ id),
            table := (run evs).table.filter (fun i => i ≠ id),
            settleLog := (run evs).settleLog ++ [(id, requestTimeout)] }) :=
  ⟨(inv_run evs).durations, fun id hid => timerFire_eq (run evs) id hid⟩

theorem c6_fixed_thirty_second_timeout_witness :
    ((1, requestTimerMs) : Nat × Nat).2 = requestTimerMs :=
  (c6_fixed_thirty_second_timeout [Event.opened, Event.register]).1
    (1, requestTimerMs) (by decide)

/-- C7 counterexample: for `call("no.such.method", {})` (request id 1), the
dispatcher's response does carry `error.code = -32601`, but the client's
`handleMessage` rejects the pending promise with
`new Error("Method not found: no.such.method")`: the logged rejection is a
plain `Error` whose `code` field is `none`, not `-32601` — the numeric code
never reaches the caller. -/
theorem c7_code_not_propagated_counterexample :
    (mockUnknownMethodResponse 1 "no.such.method").error
      = some ⟨-32601, "Method not found: no.such.method"⟩
    ∧ (run [Event.opened, Event.register,
        Event.response (mockUnknownMethodResponse 1 "no.such.method")]).settleLog
      = [(1, Outcome.rejected (RejectValue.jsError
          ⟨"Method not found: no.such.method", none⟩))] := by
  decide

/-- C7 (amended): an unknown method makes the mock dispatcher produce a
Response correlated to the original id with
`error = {code: -32601, message: "Method not found: <method>"}`; on receipt,
the client settles the pending call by rejecting it with
`new Error("Method not found: <method>")` — the error message is propagated,
but the numeric code -32601 is not attached to the rejection. -/
theorem c7_unknown_method_rejection (evs : List Event) (method : String)
    (id : Nat) (hmem : id ∈ (run evs).table) :
    (mockUnknownMethodResponse id method).id = some id
    ∧ (mockUnknownMethodResponse id method).error
        = some ⟨-32601, "Method not found: " ++ method⟩
    ∧ applyEvent (run evs) (.response (mockUnknownMethodResponse id method)) =
      { run evs with
        table := (run evs).table.filter (fun i => i ≠ id),
        armed := (run evs).armed.filter (fun e => e.1 ≠ id),
        settleLog := (run evs).settleLog ++
          [(id, Outcome.rejected (RejectValue.jsError
            ⟨"Method not found: " ++ method, none⟩))] } := by
  refine ⟨rfl, rfl, ?_⟩
  have h0 : id ≠ 0 := by
    have := (inv_run evs).armedBound id ((inv_run evs).tableArmed id hmem)
    omega
  exact handleMessage_settle (run evs) (mockUnknownMethodResponse id method)
    id rfl h0 hmem

theorem c7_unknown_method_rejection_witness :
    applyEvent (run [Event.opened, Event.register])
        (Event.response (mockUnknownMethodResponse 1 "no.such.method")) =
      { run [Event.opened, Event.register] with
        table := (run [Event.opened, Event.register]).table.filter
          (fun i => i ≠ 1),
        armed := (run [Event.opened, Event.register]).armed.filter
          (fun e => e.1 ≠ 1),
        settleLog := (run [Event.opened, Event.register]).settleLog ++
          [(1, Outcome.rejected (RejectValue.jsError
            ⟨"Method not found: " ++ "no.such.method", none⟩))] } :=
  (c7_unknown_method_rejection [Event.opened, Event.register]
    "no.such.method" 1 (by decide)).2.2

/-- C8: six consecutive failed reconnection attempts from a fresh client
schedule exactly five backoff delays — 1000, 2000, 4000, 8000, 16000 ms,
i.e. `reconnectDelay * 2 ^ (k-1)` before the k-th attempt with the observed
base of 1 s and no cap ever interfering — and the sixth call, made with the
attempt counter at `maxReconnectAttempts = 5`, schedules nothing; in general
`attemptReconnection` is the identity once the counter has reached the
maximum, so a 6th attempt never occurs. -/
theorem c8_exponential_backoff_and_cutoff :
    (run (List.replicate 6 Event.reconnectFail)).scheduled
      = [1000, 2000, 4000, 8000, 16000]
    ∧ (∀ k, k < maxReconnectAttempts →
        (run (List.replicate 6 Event.reconnectFail)).scheduled[k]?
          = some (reconnectDelay * 2 ^ k))
    ∧ (∀ s : ClientState, maxReconnectAttempts ≤ s.reconnectAttempts →
        attemptReconnection s = s) := by
  refine ⟨by decide, by decide, ?_⟩
  intro s hs
  unfold attemptReconnection
  rw [if_pos hs]

theorem c8_exponential_backoff_and_cutoff_witness :
    (run (List.replicate 6 Event.reconnectFail)).scheduled[0]?
      = some (reconnectDelay * 2 ^ 0) :=
  c8_exponential_backoff_and_cutoff.2.1 0 (by decide)

/-- C9 counterexample: after five failed reconnection attempts the counter
equals `maxReconnectAttempts`; the next `attemptReconnection` call leaves the
state completely unchanged (it only logs to the console — nothing is
scheduled and no error value is produced for the owner), and the
`connectionState` getter reports "reconnecting", never settling into
"disconnected". -/
theorem c9_exhaustion_swallowed_counterexample :
    (run (List.replicate 5 Event.reconnectFail)).reconnectAttempts
      = maxReconnectAttempts
    ∧ attemptReconnection (run (List.replicate 5 Event.reconnectFail))
      = run (List.replicate 5 Event.reconnectFail)
    ∧ connectionState (run (List.replicate 5 Event.reconnectFail))
      ≠ "disconnected"
    ∧ connectionState (run (List.replicate 5 Event.reconnectFail))
      = "reconnecting" := by
  decide

/-- C9 (amended): once `reconnectAttempts` has reached
`maxReconnectAttempts`, `attemptReconnection` stops retrying — it is the
identity on the state, scheduling nothing and surfacing nothing to the owner
(the only effect in the source is a console log); and with the socket closed
and no connect in progress the `connectionState` getter keeps reporting
"reconnecting" (because the attempt counter is positive), not
"disconnected". -/
theorem c9_exhaustion_stops_but_is_not_surfaced (s : ClientState)
    (h : maxReconnectAttempts ≤ s.reconnectAttempts)
    (hconn : s.isConnecting = false) (hws : s.wsOpen = false) :
    attemptReconnection s = s ∧ connectionState s = "reconnecting" := by
  constructor
  · unfold attemptReconnection
    rw [if_pos h]
  · have hpos : 0 < s.reconnectAttempts := by
      have h5 : (5 : Nat) ≤ s.reconnectAttempts := h
      omega
    simp [connectionState, hconn, hws, hpos]

theorem c9_exhaustion_stops_but_is_not_surfaced_witness :
    attemptReconnection (run (List.replicate 5 Event.reconnectFail))
      = run (List.replicate 5 Event.reconnectFail)
    ∧ connectionState (run (List.replicate 5 Event.reconnectFail))
      = "reconnecting" :=
  c9_exhaustion_stops_but_is_not_surfaced
    (run (List.replicate 5 Event.reconnectFail))
    (by decide) (by decide) (by decide)

/-- C10: for every request pending when `disconnect()` is invoked, its
30000 ms timer stays armed (disconnect clears the table but cancels no
timer) and the request is still unsettled; when that timer then fires, the
call is settled — rejected with `MCPConnectionError('Request timeout')` —
rather than left unsettled forever. -/
theorem c10_pending_at_disconnect_settled_by_own_timer (evs : List Event)
    (id : Nat) (hmem : id ∈ (run evs).table) :
    (id, requestTimerMs) ∈ (applyEvent (run evs) .disconnectCall).armed
    ∧ id ∉ (applyEvent (run evs) .disconnectCall).settledIds
    ∧ (applyEvent (applyEvent (run evs) .disconnectCall)
        (.timerFire id)).settleLog
      = (run evs).settleLog ++ [(id, requestTimeout)] := by
  have h := inv_run evs
  obtain ⟨e, he, hfst⟩ := List.mem_map.mp (h.tableArmed id hmem)
  have hdur := h.durations e he
  have hpair : (id, requestTimerMs) ∈ (run evs).armed := by
    have : e = (id, requestTimerMs) := by
      rcases e with ⟨a, b⟩
      simp only at hfst hdur
      rw [hfst, hdur]
    rw [this] at he
    exact he
  refine ⟨hpair, h.liveNotSettled id (Or.inl hmem), ?_⟩
  have harm : id ∈ (applyEvent (run evs) .disconnectCall).armedIds :=
    List.mem_map.mpr ⟨(id, requestTimerMs), hpair, rfl⟩
  rw [timerFire_eq _ id harm]
  rfl

theorem c10_pending_at_disconnect_settled_by_own_timer_witness :
    ((1 : Nat), requestTimerMs) ∈
      (applyEvent (run [Event.opened, Event.register])
        Event.disconnectCall).armed
    ∧ 1 ∉ (applyEvent (run [Event.opened, Event.register])
        Event.disconnectCall).settledIds
    ∧ (applyEvent (applyEvent (run [Event.opened, Event.register])
          Event.disconnectCall) (Event.timerFire 1)).settleLog
      = (run [Event.opened, Event.register]).settleLog
        ++ [(1, requestTimeout)] :=
  c10_pending_at_disconnect_settled_by_own_timer
    [Event.opened, Event.register] 1 (by decide)

end NexusMCP